import Mathlib

/-!
Verification of the tidb-operator garbage-collection watcher and the
per-role reconciler (scale / upgrade / health gate / job helpers).

The Go sources are embedded shallowly: Go maps become association lists,
goroutine side effects become explicit action traces, and outcomes of
platform calls (kubernetes API) become oracle parameters.  Every
definition follows the corresponding Go function statement by statement;
definitions for code that is not part of the repository snapshot are
marked `Modelled from the spec:` in their doc comment.
-/

namespace TidbOp

/-- Go error values that occur in the embedded code.  An error is either
one produced with errors.New / fmt.Errorf (carrying its message), the
package level ErrVersionOutdated, the operator package ErrUnavailable,
or the bounded-retry helper exhaustion error. -/
inductive GoErr where
  | goError (msg : String)
  | versionOutdated
  | unavailable
  | retryExhausted (n : Nat)
  deriving DecidableEq, Repr

/-- Event types of the kubernetes watch stream (kwatch.EventType). -/
inductive EventType where
  | added
  | modified
  | deleted
  deriving DecidableEq, Repr

/-- String form of an event type, as fmt prints kwatch.EventType. -/
def EventType.str : EventType → String
  | .added => "ADDED"
  | .modified => "MODIFIED"
  | .deleted => "DELETED"

/-- Modelled from the spec: the Db custom-resource object as the watcher
sees it (operator/types.go is not part of the snapshot).  The watcher
only reads the object name and its metadata resource version. -/
structure DbObj where
  name : String
  resourceVersion : String
  deriving DecidableEq, Repr

/-- Event over the Db custom resource (garbagecollection.Event). -/
structure Event where
  type : EventType
  object : DbObj
  deriving DecidableEq, Repr

/-! Go map embedding: a Go `map[string]V` becomes an association list with
unique keys; insert replaces in place, delete filters the key out, and
lookup returns the first binding. -/

/-- Lookup in a Go map (`m[k]` with the comma-ok form). -/
def mapGet (m : List (String × α)) (k : String) : Option α :=
  (m.find? (fun p => p.1 == k)).map Prod.snd

/-- Insert-or-replace in a Go map (`m[k] = v`). -/
def mapPut (m : List (String × α)) (k : String) (v : α) : List (String × α) :=
  match m with
  | [] => [(k, v)]
  | (k₀, v₀) :: rest =>
      if k₀ == k then (k, v) :: rest else (k₀, v₀) :: mapPut rest k v

/-- Deletion from a Go map (`delete(m, k)`). -/
def mapDel (m : List (String × α)) (k : String) : List (String × α) :=
  m.filter (fun p => p.1 != k)

/-- Watcher state: the cluster map `dbs` and the resource-version map
`dbRVs` (fields of garbagecollection.Watcher). -/
structure WatcherState where
  dbs : List (String × DbObj)
  dbRVs : List (String × String)
  deriving DecidableEq, Repr

/-- Arguments of one call to the garbage-collection helper `gc`:
the cluster looked up in the map at call time and the target object
(`nil` becomes `none`).  The helper itself lives outside the snapshot,
so only the invocation is recorded. -/
structure GcCall where
  left : Option DbObj
  target : Option DbObj
  deriving DecidableEq, Repr

/-- Result of Watcher.handleTidbEvent: the returned error, the new
watcher state, and the trace of `gc` invocations made. -/
structure HandleResult where
  err : Option GoErr
  state : WatcherState
  gcCalls : List GcCall
  deriving DecidableEq, Repr

/-- The "unsafe state" error text built by fmt.Errorf in
Watcher.handleTidbEvent for an unknown cluster name. -/
def unsafeStateMsg (t : EventType) : String :=
  "unsafe state. tidb was never created but we received event (" ++ t.str ++ ")"

/-- Watcher.handleTidbEvent (watcher.go lines 162-189).  `gcRes` is the
oracle for the result of the single possible `gc` call.  Added inserts
the cluster and its resource version; Modified requires the name to be
tracked, replaces both entries and calls `gc` with the freshly stored
object and the event object; Deleted requires the name to be tracked,
removes both entries and calls `gc` with the post-delete map lookup and
a nil target. -/
def handleTidbEvent (gcRes : Option GoErr) (s : WatcherState) (ev : Event) :
    HandleResult :=
  let db := ev.object
  match ev.type with
  | .added =>
      { err := none
        state := { dbs := mapPut s.dbs db.name db
                   dbRVs := mapPut s.dbRVs db.name db.resourceVersion }
        gcCalls := [] }
  | .modified =>
      match mapGet s.dbs db.name with
      | none =>
          { err := some (.goError (unsafeStateMsg .modified))
            state := s, gcCalls := [] }
      | some _ =>
          let dbs := mapPut s.dbs db.name db
          let s : WatcherState :=
            { dbs := dbs, dbRVs := mapPut s.dbRVs db.name db.resourceVersion }
          { err := gcRes
            state := s
            gcCalls := [{ left := mapGet dbs db.name, target := some db }] }
  | .deleted =>
      match mapGet s.dbs db.name with
      | none =>
          { err := some (.goError (unsafeStateMsg .deleted))
            state := s, gcCalls := [] }
      | some _ =>
          let dbs := mapDel s.dbs db.name
          let s : WatcherState :=
            { dbs := dbs, dbRVs := mapDel s.dbRVs db.name }
          { err := gcRes
            state := s
            gcCalls := [{ left := mapGet dbs db.name, target := none }] }

/-- The event-dispatch goroutine of Watcher.Run (lines 138-148): drains
the event channel, handles each event, logs a failed handling as a
warning and keeps going with the next event. -/
def dispatch (gcRes : Option GoErr) (s : WatcherState) :
    List Event → WatcherState
  | [] => s
  | ev :: rest => dispatch gcRes (handleTidbEvent gcRes s ev).state rest

/-- Watcher.isDbsCacheUnstable (watcher.go lines 313-326): the cache is
unstable when the cached resource-version map and the freshly listed
cluster set differ in size, or some listed cluster is missing from the
cache or cached under a different resource version. -/
def isDbsCacheUnstable (dbRVs : List (String × String))
    (currentDbs : List DbObj) : Bool :=
  if dbRVs.length != currentDbs.length then true
  else currentDbs.any (fun cd =>
    match mapGet dbRVs cd.name with
    | none => true
    | some rv => rv != cd.resourceVersion)

/-! Watch goroutine (Watcher.watch, watcher.go lines 257-311).  The raw
stream is modelled as a script: each outer-loop iteration opens one
session (the WatchTidbs call), and a session either fails to connect or
yields a list of stream items.  An item is a decodable event, an error
status with HTTP code 410 Gone carrying the outcome of the GetAllDbs
relist performed at that point, or the platform closing the stream. -/

/-- One item received from the watch stream result channel. -/
inductive StreamItem where
  | normal (ev : Event)
  | gone (relist : Except GoErr (List DbObj × String))
  | closed
  deriving Repr

/-- One outer-loop iteration of the watch goroutine: the WatchTidbs call
either errors or yields a stream of items. -/
inductive Session where
  | connErr (e : GoErr)
  | stream (items : List StreamItem)
  deriving Repr

/-- How one inner receive loop of the watch goroutine ends. -/
inductive InnerEnd where
  | breakInner (wv : String)  -- break: stream closed, or 410 with stable cache
  | exitErr (e : GoErr)       -- send ErrVersionOutdated on errCh and return
  | blocked (wv : String)     -- script exhausted while receiving
  deriving DecidableEq, Repr

/-- Observable trace of the watch goroutine: events pushed on eventCh,
errors sent on errCh, and whether the goroutine has returned within the
script (false covers both a blocked receive and an exhausted script). -/
structure WatchTrace where
  events : List Event
  errSends : List GoErr
  exited : Bool
  deriving DecidableEq, Repr

/-- Inner receive loop of Watcher.watch (lines 273-305).  A normal event
advances the cursor and is pushed; a 410 Gone status relists and either
resumes from the listed collection resource version (stable cache) or
sends ErrVersionOutdated and exits; a closed channel breaks the loop. -/
def innerLoop (dbRVs : List (String × String)) (wv : String) :
    List StreamItem → List Event × InnerEnd
  | [] => ([], .blocked wv)
  | .closed :: _ => ([], .breakInner wv)
  | .gone relist :: _ =>
      match relist with
      | .ok (dbs, listRV) =>
          if !isDbsCacheUnstable dbRVs dbs then ([], .breakInner listRV)
          else ([], .exitErr .versionOutdated)
      | .error _ => ([], .exitErr .versionOutdated)
  | .normal ev :: rest =>
      let (evs, e) := innerLoop dbRVs ev.object.resourceVersion rest
      (ev :: evs, e)

/-- Outer loop of Watcher.watch (lines 265-307).  After the inner loop
breaks, the code executes `errCh <- errors.New("test")` and then loops
back to WatchTidbs with the current cursor. -/
def watchLoop (dbRVs : List (String × String)) (wv : String) :
    List Session → WatchTrace
  | [] => { events := [], errSends := [], exited := false }
  | .connErr e :: _ => { events := [], errSends := [e], exited := true }
  | .stream items :: rest =>
      match innerLoop dbRVs wv items with
      | (evs, .blocked _) => { events := evs, errSends := [], exited := false }
      | (evs, .exitErr e) => { events := evs, errSends := [e], exited := true }
      | (evs, .breakInner wv₂) =>
          let t := watchLoop dbRVs wv₂ rest
          { events := evs ++ t.events
            errSends := GoErr.goError "test" :: t.errSends
            exited := t.exited }

/-- What Watcher.Run returns from its final `return <-errCh`: the first
value sent on the buffered error channel, or `none` when nothing is ever
sent, in which case Run blocks forever. -/
def runWatchResult (dbRVs : List (String × String)) (wv : String)
    (script : List Session) : Option GoErr :=
  (watchLoop dbRVs wv script).errSends.head?

/-! Startup phase of Watcher.Run (watcher.go lines 104-123): initResource
is retried forever with a fixed 30 second sleep between attempts; once it
succeeds the one-time recycle pass runs, and a recycle error is returned
from Run directly. -/

/-- initRetryWaitTime (watcher.go line 37), in seconds. -/
def initRetryWaitTime : Nat := 30

/-- Outcome of the startup phase of Run: a fatal return from Run, or
entry into the serving loop at a watch version.  `sleeps` records the
backoff sleeps taken, in seconds each. -/
inductive StartupResult where
  | fatal (e : GoErr) (sleeps : List Nat)
  | serving (wv : String) (sleeps : List Nat)
  deriving DecidableEq, Repr

/-- Startup phase of Watcher.Run.  `initRes i` is the outcome of the
i-th initResource attempt (the TPR registration, the initial list and
seed, and the provisioner selection, which all live inside
initResource); `recycleRes` is the outcome of the recycle pass.  `fuel`
bounds how many attempts are unrolled; `none` means the loop is still
retrying after `fuel` attempts. -/
def runStartupAux (initRes : Nat → Except GoErr String)
    (recycleRes : Option GoErr) (i : Nat) :
    Nat → Option StartupResult
  | 0 => none
  | fuel + 1 =>
      match initRes i with
      | .error _ => runStartupAux initRes recycleRes (i + 1) fuel
      | .ok wv =>
          match recycleRes with
          | some e => some (.fatal e (List.replicate i initRetryWaitTime))
          | none => some (.serving wv (List.replicate i initRetryWaitTime))

/-- Startup phase of Watcher.Run, from the first attempt. -/
def runStartup (initRes : Nat → Except GoErr String)
    (recycleRes : Option GoErr) (fuel : Nat) : Option StartupResult :=
  runStartupAux initRes recycleRes 0 fuel

/-! Reconciler embeddings (src/unnamed/part_001, operator package).
Platform calls become oracle parameters and their invocations are
recorded in action traces.  The Db / Tidb record types live in a file
outside the snapshot; per the spec the Tidb role carries a desired
replica count (the Spec struct is embedded in Tidb, so td.Replicas and
td.Spec.Replicas name the same field) and the Db status carries a
scale-state bit set. -/

/-- Modelled from the spec: the tidb scale-error status bit flagged on
Db.Status.ScaleState when a scale operation fails; only the bit being
set matters to any claim, the concrete value is arbitrary. -/
def tidbScaleErr : Nat := 2

/-- Visible actions of Db.reconcileTidbs. -/
inductive ScaleAction where
  | checkStatus
  | setReplicas (r : Int)
  | scaleRC (r : Int)
  | waitOk
  deriving DecidableEq, Repr

/-- Result of Db.reconcileTidbs: returned error, final desired replica
count, final scale-state bits, and the action trace. -/
structure ScaleResult where
  err : Option GoErr
  replicas : Int
  scaleState : Nat
  actions : List ScaleAction
  deriving DecidableEq, Repr

/-- The deferred function of reconcileTidbs (part_001 lines 246-251):
when the operation ends with an error, OR the tidb scale-error bit into
the status.  It also emits the audit trace, which no claim inspects. -/
def flagScaleErr (r : ScaleResult) : ScaleResult :=
  if r.err.isSome then { r with scaleState := r.scaleState ||| tidbScaleErr } else r

/-- Db.reconcileTidbs (part_001 lines 230-286).  `maxReplicas` is the
cached metadata maximum, `cur` the current desired replica count,
`scaleState` the current status bits; `checkRes`, `scaleCallRes` and
`waitRes` are the oracles for checkStatus, ScaleReplicationController
and waitForOk. -/
def reconcileTidbs (maxReplicas : Int) (checkRes scaleCallRes waitRes : Option GoErr)
    (cur : Int) (scaleState : Nat) (replica : Int) : ScaleResult :=
  if replica < 1 || replica == cur then
    { err := checkRes, replicas := cur, scaleState := scaleState
      actions := [.checkStatus] }
  else
    flagScaleErr <|
      if replica > maxReplicas then
        { err := some (.goError ("the replicas of tidb exceeds max " ++ toString maxReplicas))
          replicas := cur, scaleState := scaleState, actions := [] }
      else if replica < 2 then
        { err := some (.goError "replicas must be greater than 2")
          replicas := cur, scaleState := scaleState, actions := [] }
      else if replica > cur * 3 then
        { err := some (.goError "each scale out can not more then 2 times")
          replicas := cur, scaleState := scaleState, actions := [] }
      else if (cur - replica) * 3 > cur then
        { err := some (.goError "each scale dowm can not be less than one-third")
          replicas := cur, scaleState := scaleState, actions := [] }
      else
        match scaleCallRes with
        | some e =>
            { err := some e, replicas := replica, scaleState := scaleState
              actions := [.setReplicas replica, .scaleRC replica] }
        | none =>
            match waitRes with
            | some e =>
                { err := some e, replicas := replica, scaleState := scaleState
                  actions := [.setReplicas replica, .scaleRC replica, .waitOk] }
            | none =>
                { err := none, replicas := replica, scaleState := scaleState
                  actions := [.setReplicas replica, .scaleRC replica, .waitOk] }

/-! Tidb.upgrade (part_001 lines 23-71). -/

/-- Modelled from the spec: the configured image registry prefix; its
value is irrelevant to every claim. -/
def imageRegistry : String := "registry"

/-- The target image computed by Tidb.upgrade
(fmt.Sprintf with imageRegistry and the requested version). -/
def newImage (version : String) : String := imageRegistry ++ "/tidb:" ++ version

/-- Modelled from the spec: lifecycle phases are an ordered enumeration
and upgrade requires the phase to have reached PhaseTidbStarted; only
the order relative to this constant matters. -/
def PhaseTidbStarted : Int := 2

/-- Pod as seen by the upgrade loop: its name and its current image. -/
structure Pod where
  name : String
  image : String
  deriving DecidableEq, Repr

/-- Modelled from the spec: needUpgrade (defined outside the snapshot)
holds for a pod whose image does not already match the target image for
the requested version. -/
def needUpgrade (p : Pod) (version : String) : Bool :=
  p.image != newImage version

/-- Visible actions of Tidb.upgrade. -/
inductive UpgAction where
  | upgradeRC (rcName image version : String)
  | getPods
  | deletePod (n : String)
  | sleepGrace
  | waitOk (cur : String)
  deriving DecidableEq, Repr

/-- Result of Tidb.upgrade: returned error, action trace, the upgraded
flag, and the audit record — `some r` when the deferred e.Trace fired
(it fires exactly when a pod was replaced or an error occurred),
carrying the traced error. -/
structure UpgResult where
  err : Option GoErr
  actions : List UpgAction
  upgraded : Bool
  audit : Option (Option GoErr)
  deriving DecidableEq, Repr

/-- The pod loop of Tidb.upgrade (lines 53-69): each pod that needs the
new image is deleted, then the fixed 8 second termination grace period
is slept, then the health gate runs scoped to that single pod (td.cur);
the first failure aborts the remaining pods. -/
def upgradeLoop (version : String) (delRes waitRes : String → Option GoErr) :
    List Pod → Option GoErr × List UpgAction × Bool
  | [] => (none, [], false)
  | p :: rest =>
      if needUpgrade p version then
        match delRes p.name with
        | some e => (some e, [.deletePod p.name], true)
        | none =>
            match waitRes p.name with
            | some e =>
                (some e, [.deletePod p.name, .sleepGrace, .waitOk p.name], true)
            | none =>
                let (err, acts, _) := upgradeLoop version delRes waitRes rest
                (err, .deletePod p.name :: .sleepGrace :: .waitOk p.name :: acts,
                 true)
      else upgradeLoop version delRes waitRes rest

/-- Tidb.upgrade (part_001 lines 23-71).  `phase` is Db.Status.Phase,
`name` the cluster name, `rcRes` the upgradeRC oracle, `podsRes` the
GetPods oracle, `delRes` / `waitRes` the per-pod DeletePods and
waitForOk oracles. -/
def upgrade (phase : Int) (name version : String) (rcRes : Option GoErr)
    (podsRes : Except GoErr (List Pod)) (delRes waitRes : String → Option GoErr) :
    UpgResult :=
  if phase < PhaseTidbStarted then
    { err := some .unavailable, actions := [], upgraded := false
      audit := some (some .unavailable) }
  else
    let rcAct := UpgAction.upgradeRC ("tidb-" ++ name) (newImage version) version
    match rcRes with
    | some e =>
        { err := some e, actions := [rcAct], upgraded := false
          audit := some (some e) }
    | none =>
        match podsRes with
        | .error e =>
            { err := some e, actions := [rcAct, .getPods], upgraded := false
              audit := some (some e) }
        | .ok pods =>
            let (err, acts, upg) := upgradeLoop version delRes waitRes pods
            { err := err, actions := rcAct :: .getPods :: acts, upgraded := upg
              audit := if upg || err.isSome then some err else none }

/-! Bounded fixed-interval retry, health gate, and job helpers. -/

/-- Modelled from the spec: pkg/util/retryutil.Retry (not part of the
snapshot) — a bounded, fixed-interval retry helper running its
condition up to maxRetries times (interval times attempt count equals
the timeout); any failing iteration is retried, the first succeeding
iteration stops the poll with its payload, and exhausting every attempt
yields the retry-failure error. -/
def RetryAux (step : Nat → Option α) (total : Nat) : Nat → Nat → Except GoErr α
  | _, 0 => .error (.retryExhausted total)
  | i, rem + 1 =>
      match step i with
      | some a => .ok a
      | none => RetryAux step total (i + 1) rem

/-- Modelled from the spec: entry point of the bounded retry helper. -/
def Retry (maxRetries : Nat) (step : Nat → Option α) : Except GoErr α :=
  RetryAux step maxRetries 0 maxRetries

/-- Pod as the health gate sees it: name plus the platform readiness
signal (k8sutil.IsPodOk). -/
structure PodH where
  name : String
  ok : Bool
  deriving DecidableEq, Repr

/-- Environment of one health-gate iteration: the GetPods outcome, the
answer of the HTTP status endpoint probe, and the ListPodNames outcome
used by syncMembers. -/
structure HealthEnv where
  getPods : Except GoErr (List PodH)
  httpOk : Bool
  listPodNames : Except GoErr (List String)

/-- Count of individually healthy pods in a listing. -/
def healthyCount (pods : List PodH) : Nat := (pods.filter (·.ok)).length

/-- One iteration of the Tidb.waitForOk closure (part_001 lines
174-204): lists the pods, requires every one of the desired `replicas`
pods to be individually healthy, requires the status HTTP endpoint to
answer, and on success refreshes the membership list from the live pod
names (syncMembers); the payload is the refreshed membership. -/
def healthStep (replicas : Int) (E : HealthEnv) : Option (List String) :=
  match E.getPods with
  | .error _ => none
  | .ok pods =>
      if (healthyCount pods : Int) != replicas then none
      else if !E.httpOk then none
      else
        match E.listPodNames with
        | .error _ => none
        | .ok ns => some ns

/-- Tidb.waitForOk (part_001 lines 165-211): a fixed 3 second interval
poll of timeout/interval attempts; returns the refreshed membership on
success. -/
def waitForOk (replicas : Int) (timeoutSec : Nat) (env : Nat → HealthEnv) :
    Except GoErr (List String) :=
  Retry (timeoutSec / 3) (fun i => healthStep replicas (env i))

/-- One iteration of the CreateAndWaitJob closure (job.go lines 33-45):
gets the job and succeeds exactly when its active count is 1. -/
def jobStep (getJob : Nat → Except GoErr Int) (i : Nat) : Option Int :=
  match getJob i with
  | .error _ => none
  | .ok active => if active == 1 then some active else none

/-- k8sutil.CreateAndWaitJob (job.go lines 26-47): creates the job, then
polls its status at a fixed 1 second interval for timeout/interval
attempts; returns the creation error directly, else the poll outcome. -/
def createAndWaitJob (createRes : Option GoErr) (timeoutSec : Nat)
    (getJob : Nat → Except GoErr Int) : Option GoErr :=
  match createRes with
  | some e => some e
  | none =>
      match Retry (timeoutSec / 1) (jobStep getJob) with
      | .ok _ => none
      | .error e => some e

/-! k8sutil.DeleteJob (job.go lines 49-56). -/

/-- Outcome of the platform job-deletion call: success (a nil error),
a not-found error, or any other error. -/
inductive DelJobOutcome where
  | success
  | notFound
  | otherErr (e : GoErr)
  deriving DecidableEq, Repr

/-- apierrors.IsNotFound applied to the deletion outcome; on a nil
error it is false. -/
def isNotFound : DelJobOutcome → Bool
  | .notFound => true
  | _ => false

/-- The Go error value carried by the deletion outcome (nil on
success). -/
def errOf : DelJobOutcome → Option GoErr
  | .success => none
  | .notFound => some (.goError "jobs not found")
  | .otherErr e => some e

/-- k8sutil.DeleteJob: deletes the job; unless the deletion reported
not-found, returns the deletion error (nil on success) without touching
the pods; on not-found it deletes the pods carrying the job-name label
and returns that outcome.  The boolean records whether the pod deletion
was invoked. -/
def DeleteJob (delRes : DelJobOutcome) (podsDelRes : Option GoErr) :
    Option GoErr × Bool :=
  if !isNotFound delRes then (errOf delRes, false)
  else (podsDelRes, true)

/-! Theorems. -/

/-- Looking up a key right after deleting it from a Go map yields
nothing. -/
theorem mapGet_mapDel (m : List (String × α)) (k : String) :
    mapGet (mapDel m k) k = none := by
  simp only [mapGet, mapDel, Option.map_eq_none', List.find?_eq_none,
    List.mem_filter]
  intro p hp
  rcases hp with ⟨_, hne⟩
  simpa [bne_iff_ne] using hne

/-- C5: the stability check reports stable if and only if the cached
resource-version map and the relisted cluster set have equal cardinality
and every relisted cluster name is cached with an identical resource
version; any added or removed name or version mismatch reports
unstable. -/
theorem isDbsCacheUnstable_eq_false_iff (dbRVs : List (String × String))
    (currentDbs : List DbObj) :
    isDbsCacheUnstable dbRVs currentDbs = false ↔
      (dbRVs.length = currentDbs.length ∧
        ∀ cd ∈ currentDbs, mapGet dbRVs cd.name = some cd.resourceVersion) := by
  by_cases hlen : dbRVs.length = currentDbs.length
  · simp only [isDbsCacheUnstable, hlen, bne_self_eq_false, Bool.false_eq_true,
      if_false, List.any_eq_false, true_and]
    constructor
    · intro h cd hcd
      have hc := h cd hcd
      cases hm : mapGet dbRVs cd.name with
      | none => simp [hm] at hc
      | some rv =>
          simp only [hm, bne_iff_ne, ne_eq, Decidable.not_not] at hc
          exact congrArg some hc
    · intro h cd hcd
      simp [h cd hcd]
  · simp only [isDbsCacheUnstable]
    rw [if_pos (by simpa [bne_iff_ne] using hlen)]
    simp [hlen]

/-- Witness for C5: a cache holding c1 at version 100 is stable against
a relist of exactly c1 at 100, and unstable once the version moved to
105. -/
theorem isDbsCacheUnstable_witness :
    isDbsCacheUnstable [("c1", "100")] [⟨"c1", "100"⟩] = false ∧
    isDbsCacheUnstable [("c1", "100")] [⟨"c1", "105"⟩] = true := by
  constructor
  · exact (isDbsCacheUnstable_eq_false_iff [("c1", "100")]
      [⟨"c1", "100"⟩]).mpr ⟨rfl, by decide⟩
  · by_contra h
    have h2 := (isDbsCacheUnstable_eq_false_iff [("c1", "100")]
      [⟨"c1", "105"⟩]).mp (by simpa using h)
    have h3 := h2.2 ⟨"c1", "105"⟩ (by decide)
    exact absurd h3 (by decide)

/-- C2: a Modified or Deleted event for a cluster name that is not in
the cluster map returns the unsafe-state error, leaves the cluster map
and the resource-version map unchanged, makes no gc call, and the
dispatcher goroutine just logs it and continues with the remaining
events. -/
theorem handleTidbEvent_unknown (gcRes : Option GoErr) (s : WatcherState)
    (db : DbObj) (t : EventType)
    (hmem : mapGet s.dbs db.name = none)
    (ht : t = .modified ∨ t = .deleted) :
    handleTidbEvent gcRes s ⟨t, db⟩ =
      { err := some (.goError (unsafeStateMsg t)), state := s, gcCalls := [] } ∧
    ∀ rest, dispatch gcRes s (⟨t, db⟩ :: rest) = dispatch gcRes s rest := by
  rcases ht with h | h <;> subst h <;>
    refine ⟨by simp [handleTidbEvent, hmem], fun rest => ?_⟩ <;>
    simp [dispatch, handleTidbEvent, hmem]

/-- Witness for C2: a Modified event for the unknown name c1 on an
empty store errors without mutating anything, and the dispatcher keeps
going. -/
theorem handleTidbEvent_unknown_witness :
    (mapGet (WatcherState.mk [] []).dbs "c1" = none ∧
      (EventType.modified = EventType.modified ∨
        EventType.modified = EventType.deleted)) ∧
    handleTidbEvent none ⟨[], []⟩ ⟨.modified, ⟨"c1", "7"⟩⟩ =
      { err := some (.goError (unsafeStateMsg .modified))
        state := ⟨[], []⟩, gcCalls := [] } ∧
    dispatch none ⟨[], []⟩ [⟨.modified, ⟨"c1", "7"⟩⟩, ⟨.added, ⟨"c2", "8"⟩⟩] =
      dispatch none ⟨[], []⟩ [⟨.added, ⟨"c2", "8"⟩⟩] := by
  refine ⟨⟨rfl, Or.inl rfl⟩, ?_, ?_⟩
  · exact (handleTidbEvent_unknown none ⟨[], []⟩ ⟨"c1", "7"⟩ .modified rfl
      (Or.inl rfl)).1
  · exact (handleTidbEvent_unknown none ⟨[], []⟩ ⟨"c1", "7"⟩ .modified rfl
      (Or.inl rfl)).2 [⟨.added, ⟨"c2", "8"⟩⟩]

/-- C8: a Deleted event for a tracked cluster name removes the cluster
from both the cluster map and the resource-version map and then makes
exactly one gc call whose target is nil (and whose cluster argument is
the post-delete map lookup, also nil). -/
theorem handleTidbEvent_deleted (gcRes : Option GoErr) (s : WatcherState)
    (db d : DbObj) (hmem : mapGet s.dbs db.name = some d) :
    handleTidbEvent gcRes s ⟨.deleted, db⟩ =
      { err := gcRes
        state := { dbs := mapDel s.dbs db.name, dbRVs := mapDel s.dbRVs db.name }
        gcCalls := [{ left := none, target := none }] } := by
  simp [handleTidbEvent, hmem, mapGet_mapDel]

/-- Witness for C8: deleting the tracked cluster c1 erases both entries
and calls gc with a nil target. -/
theorem handleTidbEvent_deleted_witness :
    mapGet (WatcherState.mk [("c1", ⟨"c1", "7"⟩)] [("c1", "7")]).dbs "c1" =
      some ⟨"c1", "7"⟩ ∧
    handleTidbEvent none ⟨[("c1", ⟨"c1", "7"⟩)], [("c1", "7")]⟩
        ⟨.deleted, ⟨"c1", "9"⟩⟩ =
      { err := none, state := ⟨[], []⟩
        gcCalls := [{ left := none, target := none }] } := by
  constructor
  · rfl
  · have h := handleTidbEvent_deleted none
      ⟨[("c1", ⟨"c1", "7"⟩)], [("c1", "7")]⟩ ⟨"c1", "9"⟩ ⟨"c1", "7"⟩ rfl
    simpa [mapDel] using h

/-- C10: DeleteJob returns success without deleting the pods when the
platform deletion succeeds, deletes the job-name labelled pods exactly
when the deletion reported not-found, and returns any other deletion
error as-is without touching the pods. -/
theorem DeleteJob_spec (podsDelRes : Option GoErr) :
    DeleteJob .success podsDelRes = (none, false) ∧
    DeleteJob .notFound podsDelRes = (podsDelRes, true) ∧
    ∀ e, DeleteJob (.otherErr e) podsDelRes = (some e, false) := by
  refine ⟨rfl, rfl, fun e => rfl⟩

/-- Witness for C10: the three deletion outcomes evaluated at concrete
errors. -/
theorem DeleteJob_spec_witness :
    DeleteJob .success none = (none, false) ∧
    DeleteJob .notFound none = (none, true) ∧
    DeleteJob (.otherErr (.goError "boom")) none =
      (some (.goError "boom"), false) :=
  ⟨(DeleteJob_spec none).1, (DeleteJob_spec none).2.1,
    (DeleteJob_spec none).2.2 (.goError "boom")⟩

/-- C9: upgrading a cluster whose phase has not reached Started returns
ErrUnavailable with an empty action trace — no image update on the
workload controller and no pod deletion — while the audit event still
records the failed outcome. -/
theorem upgrade_unavailable (phase : Int) (name version : String)
    (rcRes : Option GoErr) (podsRes : Except GoErr (List Pod))
    (delRes waitRes : String → Option GoErr)
    (h : phase < PhaseTidbStarted) :
    upgrade phase name version rcRes podsRes delRes waitRes =
      { err := some .unavailable, actions := [], upgraded := false
        audit := some (some .unavailable) } := by
  simp [upgrade, h]

/-- Witness for C9: a Pending-phase cluster (phase 0) is refused with
no platform mutation. -/
theorem upgrade_unavailable_witness :
    (0 : Int) < PhaseTidbStarted ∧
    upgrade 0 "c1" "v2" none (.ok []) (fun _ => none) (fun _ => none) =
      { err := some .unavailable, actions := [], upgraded := false
        audit := some (some .unavailable) } :=
  ⟨by decide,
   upgrade_unavailable 0 "c1" "v2" none (.ok []) (fun _ => none) (fun _ => none)
     (by decide)⟩

/-- C3: a scale request equal to the current count or below 1 is a
no-op that only runs the health recheck; otherwise the request is
rejected with the desired count unmutated exactly when it exceeds the
maximum, is below 2, exceeds three times the current count, or shrinks
by more than a third — checked in that order, as the error message of
the first violated check shows — and every other request mutates the
desired count exactly once, right before the platform scale call. -/
theorem reconcileTidbs_spec (maxReplicas cur replica : Int) (ss : Nat)
    (checkRes scaleCallRes waitRes : Option GoErr) :
    ((replica < 1 ∨ replica = cur) →
      reconcileTidbs maxReplicas checkRes scaleCallRes waitRes cur ss replica =
        { err := checkRes, replicas := cur, scaleState := ss
          actions := [.checkStatus] }) ∧
    (¬(replica < 1 ∨ replica = cur) →
      (let r := reconcileTidbs maxReplicas checkRes scaleCallRes waitRes cur ss
        replica
      ((replica > maxReplicas ∨ replica < 2 ∨ replica > cur * 3 ∨
          (cur - replica) * 3 > cur) ↔
        (r.err.isSome ∧ r.replicas = cur ∧ r.actions = [])) ∧
      (replica > maxReplicas →
        r.err = some (.goError
          ("the replicas of tidb exceeds max " ++ toString maxReplicas))) ∧
      (¬replica > maxReplicas → replica < 2 →
        r.err = some (.goError "replicas must be greater than 2")) ∧
      (¬replica > maxReplicas → ¬replica < 2 → replica > cur * 3 →
        r.err = some (.goError "each scale out can not more then 2 times")) ∧
      (¬replica > maxReplicas → ¬replica < 2 → ¬replica > cur * 3 →
        (cur - replica) * 3 > cur →
        r.err = some (.goError "each scale dowm can not be less than one-third")) ∧
      (¬(replica > maxReplicas ∨ replica < 2 ∨ replica > cur * 3 ∨
          (cur - replica) * 3 > cur) →
        r.replicas = replica ∧
        r.actions = [.setReplicas replica, .scaleRC replica] ++
          (if scaleCallRes.isSome then [] else [.waitOk])))) := by
  constructor
  · intro h
    have hb : (decide (replica < 1) || replica == cur) = true := by
      rcases h with h | h <;> simp [h]
    simp [reconcileTidbs, hb]
  · intro h
    push_neg at h
    obtain ⟨h1, h2⟩ := h
    have hb : (decide (replica < 1) || replica == cur) = false := by
      simp [h2, not_lt.mpr h1, Int.not_lt.mpr h1]
    by_cases c1 : replica > maxReplicas
    · simp [reconcileTidbs, hb, c1, flagScaleErr]
    · by_cases c2 : replica < 2
      · simp [reconcileTidbs, hb, c1, c2, flagScaleErr]
      · by_cases c3 : replica > cur * 3
        · simp [reconcileTidbs, hb, c1, c2, c3, flagScaleErr]
        · by_cases c4 : (cur - replica) * 3 > cur
          · simp [reconcileTidbs, hb, c1, c2, c3, c4, flagScaleErr]
          · cases scaleCallRes with
            | some e =>
                simp [reconcileTidbs, hb, c1, c2, c3, c4, flagScaleErr, h2]
            | none =>
                cases waitRes with
                | some e =>
                    simp [reconcileTidbs, hb, c1, c2, c3, c4, flagScaleErr, h2]
                | none =>
                    simp [reconcileTidbs, hb, c1, c2, c3, c4, flagScaleErr, h2]

/-- Witness for C3: with maximum 10 and current count 3, scaling to 3
is a no-op, scaling to 20 is rejected with the max-exceeded message and
no mutation, and scaling to 5 is accepted, setting the desired count
once before the platform scale call. -/
theorem reconcileTidbs_spec_witness :
    reconcileTidbs 10 none none none 3 0 3 =
      { err := none, replicas := 3, scaleState := 0
        actions := [.checkStatus] } ∧
    (reconcileTidbs 10 none none none 3 0 20).err =
      some (.goError "the replicas of tidb exceeds max 10") ∧
    (reconcileTidbs 10 none none none 3 0 20).replicas = 3 ∧
    (reconcileTidbs 10 none none none 3 0 5).actions =
      [.setReplicas 5, .scaleRC 5, .waitOk] := by
  refine ⟨(reconcileTidbs_spec 10 3 3 0 none none none).1 (Or.inr rfl), ?_, ?_, ?_⟩
  · exact (reconcileTidbs_spec 10 3 20 0 none none none).2 (by omega) |>.2.1
      (by omega)
  · exact (((reconcileTidbs_spec 10 3 20 0 none none none).2 (by omega)).1.mp
      (by omega)).2.1
  · have h := ((reconcileTidbs_spec 10 3 5 0 none none none).2 (by omega)).2.2.2.2.2
      (by omega)
    simpa using h.2

/-- The delete / sleep / health-gate cycle trace for the pods of a
listing that need the new image, in listing order. -/
def upgCycles (version : String) (pods : List Pod) : List UpgAction :=
  (pods.filter (fun p => needUpgrade p version)).flatMap
    (fun p => [.deletePod p.name, .sleepGrace, .waitOk p.name])

/-- When every per-pod operation succeeds, the upgrade loop performs
exactly one delete / sleep / health-gate cycle per pod needing the new
image, in listing order. -/
theorem upgradeLoop_all_ok (version : String)
    (delRes waitRes : String → Option GoErr) (pods : List Pod)
    (hok : ∀ p ∈ pods, delRes p.name = none ∧ waitRes p.name = none) :
    upgradeLoop version delRes waitRes pods =
      (none, upgCycles version pods,
        pods.any (fun p => needUpgrade p version)) := by
  induction pods with
  | nil => simp [upgradeLoop, upgCycles]
  | cons p rest ih =>
      have hp := hok p (List.mem_cons_self p rest)
      have hrest : ∀ q ∈ rest, delRes q.name = none ∧ waitRes q.name = none :=
        fun q hq => hok q (List.mem_cons_of_mem p hq)
      by_cases hn : needUpgrade p version
      · simp [upgradeLoop, hn, hp.1, hp.2, ih hrest, upgCycles]
      · simp [upgradeLoop, hn, ih hrest, upgCycles]

/-- When the cycle of some pod fails, the loop stops there: the pods
before it got their full cycles, the failing pod gets the prefix of its
cycle up to the failing step, and nothing is done for the remaining
pods (and nothing is rolled back). -/
theorem upgradeLoop_abort (version : String)
    (delRes waitRes : String → Option GoErr) (xs ys : List Pod) (p : Pod)
    (e : GoErr)
    (hxs : ∀ q ∈ xs, delRes q.name = none ∧ waitRes q.name = none)
    (hn : needUpgrade p version = true) :
    (delRes p.name = some e →
      upgradeLoop version delRes waitRes (xs ++ p :: ys) =
        (some e, upgCycles version xs ++ [.deletePod p.name], true)) ∧
    (delRes p.name = none → waitRes p.name = some e →
      upgradeLoop version delRes waitRes (xs ++ p :: ys) =
        (some e, upgCycles version xs ++
          [.deletePod p.name, .sleepGrace, .waitOk p.name], true)) := by
  induction xs with
  | nil =>
      constructor
      · intro hd
        simp [upgradeLoop, hn, hd, upgCycles]
      · intro hd hw
        simp [upgradeLoop, hn, hd, hw, upgCycles]
  | cons q rest ih =>
      have hq := hxs q (List.mem_cons_self q rest)
      have hrest : ∀ r ∈ rest, delRes r.name = none ∧ waitRes r.name = none :=
        fun r hr => hxs r (List.mem_cons_of_mem q hr)
      obtain ⟨ih1, ih2⟩ := ih hrest
      constructor
      · intro hd
        by_cases hnq : needUpgrade q version
        · simp [upgradeLoop, hnq, hq.1, hq.2, ih1 hd, upgCycles]
        · simp [upgradeLoop, hnq, ih1 hd, upgCycles]
      · intro hd hw
        by_cases hnq : needUpgrade q version
        · simp [upgradeLoop, hnq, hq.1, hq.2, ih2 hd hw, upgCycles]
        · simp [upgradeLoop, hnq, ih2 hd hw, upgCycles]

/-- C4: for a started cluster, the upgrade updates the workload
controller image, lists the pods, and then performs exactly one
delete-then-wait cycle — delete the pod, sleep the 8 second grace
period, run the health gate scoped to that pod — per pod needing the
new image, serialized in pod-list order with the gate after each
replacement; a failing cycle aborts the remaining pods and nothing is
rolled back. -/
theorem upgrade_serialized (phase : Int) (name version : String)
    (delRes waitRes : String → Option GoErr)
    (hphase : ¬phase < PhaseTidbStarted) :
    (∀ pods, (∀ p ∈ pods, delRes p.name = none ∧ waitRes p.name = none) →
      upgrade phase name version none (.ok pods) delRes waitRes =
        { err := none
          actions := .upgradeRC ("tidb-" ++ name) (newImage version) version ::
            .getPods :: upgCycles version pods
          upgraded := pods.any (fun p => needUpgrade p version)
          audit := if pods.any (fun p => needUpgrade p version) then some none
            else none }) ∧
    (∀ xs ys p e, (∀ q ∈ xs, delRes q.name = none ∧ waitRes q.name = none) →
      needUpgrade p version = true →
      (delRes p.name = some e →
        upgrade phase name version none (.ok (xs ++ p :: ys)) delRes waitRes =
          { err := some e
            actions := .upgradeRC ("tidb-" ++ name) (newImage version) version ::
              .getPods :: (upgCycles version xs ++ [.deletePod p.name])
            upgraded := true, audit := some (some e) }) ∧
      (delRes p.name = none → waitRes p.name = some e →
        upgrade phase name version none (.ok (xs ++ p :: ys)) delRes waitRes =
          { err := some e
            actions := .upgradeRC ("tidb-" ++ name) (newImage version) version ::
              .getPods :: (upgCycles version xs ++
                [.deletePod p.name, .sleepGrace, .waitOk p.name])
            upgraded := true, audit := some (some e) })) := by
  constructor
  · intro pods hok
    simp [upgrade, hphase, upgradeLoop_all_ok version delRes waitRes pods hok]
  · intro xs ys p e hxs hn
    obtain ⟨h1, h2⟩ := upgradeLoop_abort version delRes waitRes xs ys p e hxs hn
    constructor
    · intro hd
      simp [upgrade, hphase, h1 hd]
    · intro hd hw
      simp [upgrade, hphase, h2 hd hw]

/-- Witness for C4: with two pods of which only the stale one needs the
new image, the upgrade runs exactly one full cycle in order; and when
the health gate of the first stale pod fails, the second stale pod is
never touched. -/
theorem upgrade_serialized_witness :
    ¬(2 : Int) < PhaseTidbStarted ∧
    upgrade 2 "c1" "v2" none
        (.ok [⟨"a", "registry/tidb:v2"⟩, ⟨"b", "registry/tidb:v1"⟩])
        (fun _ => none) (fun _ => none) =
      { err := none
        actions := [.upgradeRC "tidb-c1" "registry/tidb:v2" "v2", .getPods,
          .deletePod "b", .sleepGrace, .waitOk "b"]
        upgraded := true, audit := some none } ∧
    upgrade 2 "c1" "v2" none
        (.ok [⟨"b", "registry/tidb:v1"⟩, ⟨"c", "registry/tidb:v1"⟩])
        (fun _ => none)
        (fun _ => some (.goError "gate failed")) =
      { err := some (.goError "gate failed")
        actions := [.upgradeRC "tidb-c1" "registry/tidb:v2" "v2", .getPods,
          .deletePod "b", .sleepGrace, .waitOk "b"]
        upgraded := true, audit := some (some (.goError "gate failed")) } := by
  refine ⟨by decide, ?_, ?_⟩
  · have h := (upgrade_serialized 2 "c1" "v2" (fun _ => none) (fun _ => none)
      (by decide)).1 [⟨"a", "registry/tidb:v2"⟩, ⟨"b", "registry/tidb:v1"⟩]
      (by intro p _; exact ⟨rfl, rfl⟩)
    rw [h]
    rfl
  · have h := ((upgrade_serialized 2 "c1" "v2" (fun _ => none)
      (fun _ => some (.goError "gate failed")) (by decide)).2 []
      [⟨"c", "registry/tidb:v1"⟩] ⟨"b", "registry/tidb:v1"⟩
      (.goError "gate failed") (by intro q hq; simp at hq)
      (by decide)).2 rfl rfl
    simp only [List.nil_append] at h
    rw [h]
    rfl

/-- The retry helper exhausts into an error exactly when every attempt
in its window fails. -/
theorem RetryAux_error_iff (step : Nat → Option α) (total : Nat) :
    ∀ rem i, (∃ e, RetryAux step total i rem = .error e) ↔
      ∀ j, i ≤ j → j < i + rem → step j = none := by
  intro rem
  induction rem with
  | zero =>
      intro i
      constructor
      · intro _ j hij hjt
        omega
      · intro _
        exact ⟨.retryExhausted total, rfl⟩
  | succ rem ih =>
      intro i
      cases hs : step i with
      | some a =>
          simp only [RetryAux, hs]
          constructor
          · intro ⟨e, he⟩
            exact absurd he (by simp)
          · intro h
            have := h i le_rfl (by omega)
            rw [hs] at this
            exact absurd this (by simp)
      | none =>
          simp only [RetryAux, hs]
          rw [ih (i + 1)]
          constructor
          · intro h j hij hjt
            rcases Nat.eq_or_lt_of_le hij with rfl | hlt
            · exact hs
            · exact h j hlt (by omega)
          · intro h j hij hjt
            exact h j (by omega) (by omega)

/-- A successful retry stems from some succeeding attempt inside the
window. -/
theorem RetryAux_ok (step : Nat → Option α) (total : Nat) :
    ∀ rem i a, RetryAux step total i rem = .ok a →
      ∃ j, i ≤ j ∧ j < i + rem ∧ step j = some a := by
  intro rem
  induction rem with
  | zero =>
      intro i a h
      exact absurd h (by simp [RetryAux])
  | succ rem ih =>
      intro i a h
      cases hs : step i with
      | some b =>
          simp only [RetryAux, hs, Except.ok.injEq] at h
          exact ⟨i, le_rfl, by omega, by rw [hs, h]⟩
      | none =>
          simp only [RetryAux, hs] at h
          obtain ⟨j, hij, hjt, hstep⟩ := ih (i + 1) a h
          exact ⟨j, by omega, by omega, hstep⟩

/-- C7: the health gate polls at a 3 second interval for exactly
timeout/3 attempts and the job-start wait at a 1 second interval for
exactly timeout/1 attempts; each failing iteration is retried and the
operation errors exactly when every attempt fails; a health-gate
iteration succeeds only when the healthy pod count equals the desired
replica count and the status HTTP endpoint answers, and the succeeding
iteration refreshes the membership from the live pod names. -/
theorem polling_spec (replicas : Int) (timeoutSec jobTimeoutSec : Nat)
    (env : Nat → HealthEnv) (getJob : Nat → Except GoErr Int) :
    ((∃ e, waitForOk replicas timeoutSec env = .error e) ↔
      ∀ i < timeoutSec / 3, healthStep replicas (env i) = none) ∧
    (∀ E ms, healthStep replicas E = some ms →
      (∃ pods, E.getPods = .ok pods ∧ (healthyCount pods : Int) = replicas) ∧
      E.httpOk = true ∧ E.listPodNames = .ok ms) ∧
    (∀ ms, waitForOk replicas timeoutSec env = .ok ms →
      ∃ i, i < timeoutSec / 3 ∧ healthStep replicas (env i) = some ms) ∧
    ((∃ e, createAndWaitJob none jobTimeoutSec getJob = some e) ↔
      ∀ i < jobTimeoutSec / 1, jobStep getJob i = none) := by
  have key : ∀ (β : Type) (total : Nat) (step : Nat → Option β),
      (∃ e, Retry total step = .error e) ↔ ∀ i < total, step i = none := by
    intro β total step
    rw [Retry, RetryAux_error_iff]
    constructor
    · intro h i hi
      exact h i (by omega) (by omega)
    · intro h j hij hjt
      exact h j (by omega)
  refine ⟨?_, ?_, ?_, ?_⟩
  · rw [waitForOk]
    exact key _ _ _
  · intro E ms
    obtain ⟨gp, ho, ln⟩ := E
    intro h
    dsimp only [healthStep] at h
    cases gp with
    | error e => exact absurd h (by simp)
    | ok pods =>
        dsimp only at h
        by_cases hc : ((healthyCount pods : Int) != replicas) = true
        · rw [if_pos hc] at h
          exact absurd h (by simp)
        · rw [if_neg hc] at h
          cases ho with
          | false => exact absurd h (by simp)
          | true =>
              rw [if_neg (by simp)] at h
              cases ln with
              | error e => exact absurd h (by simp)
              | ok ns =>
                  have hms : ns = ms := by simpa using h
                  exact ⟨⟨pods, rfl, by simpa [bne_iff_ne] using hc⟩, rfl,
                    by rw [hms]⟩
  · intro ms h
    rw [waitForOk, Retry] at h
    obtain ⟨j, h0, hj, hstep⟩ := RetryAux_ok _ _ _ _ _ h
    exact ⟨j, by omega, hstep⟩
  · constructor
    · intro ⟨e, he⟩
      apply (key _ _ _).mp
      unfold createAndWaitJob at he
      cases hr : Retry (jobTimeoutSec / 1) (jobStep getJob) with
      | ok a => rw [hr] at he; exact absurd he (by simp)
      | error e2 => exact ⟨e2, rfl⟩
    · intro h
      obtain ⟨e2, hr⟩ := (key _ _ _).mpr h
      refine ⟨e2, ?_⟩
      unfold createAndWaitJob
      rw [hr]

/-- Witness for C7: with a 9 second timeout the gate makes three
attempts; an environment whose pods never all report healthy exhausts
into an error, a job whose status never turns active exhausts its two
1 second attempts, and a succeeding iteration implies the healthy count
matched and the endpoint answered. -/
theorem polling_spec_witness :
    (∃ e, waitForOk 2 9
        (fun _ => ⟨.ok [⟨"a", true⟩], true, .ok ["a"]⟩) = .error e) ∧
    (∃ e, createAndWaitJob none 2 (fun _ => .ok 0) = some e) ∧
    ((∃ pods, (⟨.ok [⟨"a", true⟩, ⟨"b", true⟩], true,
        .ok ["a", "b"]⟩ : HealthEnv).getPods = .ok pods ∧
        (healthyCount pods : Int) = 2) ∧
      (⟨.ok [⟨"a", true⟩, ⟨"b", true⟩], true,
        .ok ["a", "b"]⟩ : HealthEnv).httpOk = true ∧
      (⟨.ok [⟨"a", true⟩, ⟨"b", true⟩], true,
        .ok ["a", "b"]⟩ : HealthEnv).listPodNames = .ok ["a", "b"]) := by
  refine ⟨?_, ?_, ?_⟩
  · exact (polling_spec 2 9 2
      (fun _ => ⟨.ok [⟨"a", true⟩], true, .ok ["a"]⟩) (fun _ => .ok 0)).1.mpr
      (by decide)
  · exact (polling_spec 2 9 2
      (fun _ => ⟨.ok [⟨"a", true⟩], true, .ok ["a"]⟩) (fun _ => .ok 0)).2.2.2.mpr
      (by decide)
  · exact (polling_spec 2 9 2
      (fun _ => ⟨.ok [⟨"a", true⟩, ⟨"b", true⟩], true, .ok ["a", "b"]⟩)
      (fun _ => .ok 0)).2.1
      ⟨.ok [⟨"a", true⟩, ⟨"b", true⟩], true, .ok ["a", "b"]⟩ ["a", "b"]
      (by decide)

/-- C6 counterexample: when every initResource step succeeds at once
and the one-time recycle pass fails, Run returns that error immediately
— zero 30 second backoff sleeps, no retry of the recycle pass — instead
of retrying the failed startup step as the claim states. -/
theorem runStartup_recycle_fatal :
    runStartup (fun _ => .ok "5") (some (.goError "recycle failed")) 4 =
      some (.fatal (.goError "recycle failed") []) := rfl

/-- One failed initResource attempt sleeps and moves to the next
attempt. -/
theorem runStartupAux_step_err (initRes : Nat → Except GoErr String)
    (recycleRes : Option GoErr) (i fuel : Nat) (e : GoErr)
    (he : initRes i = .error e) :
    runStartupAux initRes recycleRes i (fuel + 1) =
      runStartupAux initRes recycleRes (i + 1) fuel := by
  simp only [runStartupAux, he]

/-- A succeeding initResource attempt hands over to the recycle pass. -/
theorem runStartupAux_step_ok (initRes : Nat → Except GoErr String)
    (recycleRes : Option GoErr) (i fuel : Nat) (wv : String)
    (hk : initRes i = .ok wv) :
    runStartupAux initRes recycleRes i (fuel + 1) =
      some (match recycleRes with
            | some e => .fatal e (List.replicate i initRetryWaitTime)
            | none => .serving wv (List.replicate i initRetryWaitTime)) := by
  cases recycleRes <;> simp [runStartupAux, hk]

/-- Reaching the serving loop is only possible when the recycle pass
succeeded. -/
theorem runStartupAux_serving (initRes : Nat → Except GoErr String)
    (recycleRes : Option GoErr) :
    ∀ fuel i wv₂ sl,
      runStartupAux initRes recycleRes i fuel = some (.serving wv₂ sl) →
      recycleRes = none := by
  intro fuel
  induction fuel with
  | zero =>
      intro i wv₂ sl h
      exact absurd h (by simp [runStartupAux])
  | succ f ih =>
      intro i wv₂ sl h
      cases hi : initRes i with
      | error e =>
          rw [runStartupAux_step_err initRes recycleRes i f e hi] at h
          exact ih (i + 1) wv₂ sl h
      | ok w =>
          rw [runStartupAux_step_ok initRes recycleRes i f w hi] at h
          cases recycleRes with
          | some e => simp at h
          | none => rfl

/-- Behavior of the startup loop from any starting attempt index. -/
theorem runStartupAux_spec (initRes : Nat → Except GoErr String)
    (recycleRes : Option GoErr) (wv : String) :
    ∀ k i, (∀ j, i ≤ j → j < i + k → ∃ e, initRes j = .error e) →
      initRes (i + k) = .ok wv →
      (∀ fuel ≤ k, runStartupAux initRes recycleRes i fuel = none) ∧
      runStartupAux initRes recycleRes i (k + 1) =
        some (match recycleRes with
              | some e => .fatal e (List.replicate (i + k) initRetryWaitTime)
              | none => .serving wv (List.replicate (i + k) initRetryWaitTime)) := by
  intro k
  induction k with
  | zero =>
      intro i _ hk
      rw [Nat.add_zero] at hk
      constructor
      · intro fuel hf
        have hz : fuel = 0 := by omega
        subst hz
        rfl
      · rw [runStartupAux_step_ok initRes recycleRes i 0 wv hk, Nat.add_zero]
  | succ k ih =>
      intro i hfail hk
      obtain ⟨e, he⟩ := hfail i le_rfl (by omega)
      have hfail₂ : ∀ j, i + 1 ≤ j → j < (i + 1) + k → ∃ e2, initRes j = .error e2 :=
        fun j h1 h2 => hfail j (by omega) (by omega)
      have hk₂ : initRes ((i + 1) + k) = .ok wv := by
        rw [show (i + 1) + k = i + (k + 1) by omega]
        exact hk
      obtain ⟨ihA, ihB⟩ := ih (i + 1) hfail₂ hk₂
      constructor
      · intro fuel hf
        cases fuel with
        | zero => rfl
        | succ f =>
            rw [runStartupAux_step_err initRes recycleRes i f e he]
            exact ihA f (by omega)
      · rw [runStartupAux_step_err initRes recycleRes i (k + 1) e he,
          show i + (k + 1) = (i + 1) + k by omega]
        exact ihB

/-- C6 amended: the initResource step — registering the custom-resource
type, listing and seeding the state store, selecting the provisioner —
is retried indefinitely with a fixed 30 second backoff, and the serving
loop is not entered while it keeps failing; once it succeeds the
one-time recycle pass runs exactly once and is NOT retried: a recycle
failure makes Run return that error without entering the serving loop,
and the serving loop is entered only when the recycle pass also
succeeded. -/
theorem runStartup_spec (initRes : Nat → Except GoErr String)
    (recycleRes : Option GoErr) (wv : String) (k : Nat)
    (hfail : ∀ j < k, ∃ e, initRes j = .error e)
    (hk : initRes k = .ok wv) :
    (∀ fuel ≤ k, runStartup initRes recycleRes fuel = none) ∧
    runStartup initRes recycleRes (k + 1) =
      some (match recycleRes with
            | some e => .fatal e (List.replicate k initRetryWaitTime)
            | none => .serving wv (List.replicate k initRetryWaitTime)) ∧
    (∀ fuel wv₂ sl,
      runStartup initRes recycleRes fuel = some (.serving wv₂ sl) →
      recycleRes = none) := by
  have h := runStartupAux_spec initRes recycleRes wv k 0
    (fun j h1 h2 => hfail j (by omega)) (by simpa using hk)
  refine ⟨h.1, by simpa using h.2, ?_⟩
  intro fuel wv₂ sl hser
  exact runStartupAux_serving initRes recycleRes fuel 0 wv₂ sl hser

/-- Witness for C6 amended: with the first two initResource attempts
failing and the third succeeding, the startup loop is still retrying
after two units of fuel, a failing recycle pass then makes Run return
fatally after two 30 second sleeps, and a clean recycle pass enters the
serving loop. -/
theorem runStartup_spec_witness :
    ((∀ j < 2, ∃ e, (fun i => if i < 2 then Except.error (GoErr.goError "listing failed")
        else Except.ok "9") j = .error e) ∧
      (fun i => if i < 2 then Except.error (GoErr.goError "listing failed")
        else Except.ok "9") 2 = .ok "9") ∧
    runStartup (fun i => if i < 2 then .error (.goError "listing failed")
      else .ok "9") (some (.goError "recycle failed")) 2 = none ∧
    runStartup (fun i => if i < 2 then .error (.goError "listing failed")
      else .ok "9") (some (.goError "recycle failed")) 3 =
      some (.fatal (.goError "recycle failed") [30, 30]) ∧
    runStartup (fun i => if i < 2 then .error (.goError "listing failed")
      else .ok "9") none 3 = some (.serving "9" [30, 30]) := by
  refine ⟨⟨?_, by simp⟩, ?_, ?_, ?_⟩
  · intro j hj
    exact ⟨.goError "listing failed", by simp [hj]⟩
  · exact (runStartup_spec (fun i => if i < 2 then .error (.goError "listing failed")
      else .ok "9") (some (.goError "recycle failed")) "9" 2
      (fun j hj => ⟨.goError "listing failed", by simp [hj]⟩) (by simp)).1 2
      le_rfl
  · have h := (runStartup_spec (fun i => if i < 2 then .error (.goError "listing failed")
      else .ok "9") (some (.goError "recycle failed")) "9" 2
      (fun j hj => ⟨.goError "listing failed", by simp [hj]⟩) (by simp)).2.1
    simpa using h
  · have h := (runStartup_spec (fun i => if i < 2 then .error (.goError "listing failed")
      else .ok "9") none "9" 2
      (fun j hj => ⟨.goError "listing failed", by simp [hj]⟩) (by simp)).2.1
    simpa using h

/-- C1: after the inner receive loop breaks — on a 410 Gone status with
a stable relist, or on the platform closing the stream — the watch
goroutine sends errors.New with message test on the buffered error
channel, so Run returns that error instead of blocking; only the
unstable-relist branch returns the claimed ErrVersionOutdated.  The
first two conjuncts exhibit the divergence from the claim at concrete
inputs; the third shows the unstable branch. -/
theorem watch_sends_test_error :
    runWatchResult [("c1", "100")] "100"
        [.stream [.gone (.ok ([⟨"c1", "100"⟩], "105"))]] =
      some (.goError "test") ∧
    runWatchResult [("c1", "100")] "100" [.stream [.closed]] =
      some (.goError "test") ∧
    runWatchResult [("c1", "100")] "100"
        [.stream [.gone (.ok ([⟨"c1", "105"⟩], "105"))]] =
      some .versionOutdated := by
  refine ⟨rfl, rfl, rfl⟩

end TidbOp
